import Mathlib

/-!
Shallow embedding of the query-interception, key-resolution and
stampede-protection core of `prisma-extension-cache-manager`
(the extension variant with in-flight deduplication and a distributed
Valkey/Redis lock).

The ORM query executor, the key-value store and the lock transport are
opaque collaborators; their responses are supplied through an explicit
environment record, and the interceptor itself is a deterministic and
executable function of that environment.  Machine details that the
claims do not touch (value serialization, the concrete `object-code`
hash) are abstracted as parameters.
-/

namespace PrismaCache

/-- Business values stored in the cache.  A dedicated `vnull`
constructor keeps a cached JSON `null` distinguishable from absence
(`Option.none` plays the role of JavaScript `undefined`). -/
inductive Val where
  | vnull
  | vint (n : ℤ)
  | vstr (s : String)
  deriving DecidableEq, Repr

/-- Opaque query arguments (the rest of `args` once the `cache` and
`uncache` fields are split off). -/
abbrev QArgs := String

/-- Outcome of one raw cache-store `get`: the store can reject
(`Except.error`) or resolve with a value or with `undefined`. -/
abbrev GetR := Except Unit (Option Val)

/-- Composed cache key, from `composedKey(m, a)`; the `object-code`
hash is an opaque parameter. -/
def composedKey (hashFn : QArgs → String) (m : String) (a : QArgs) : String :=
  m ++ "@" ++ hashFn a

/-- Namespace qualification, from `ns(k, n)`: a truthy (present,
non-empty) namespace is prepended with a colon. -/
def ns (k : String) (n : Option String) : String :=
  match n with
  | some s => if s.isEmpty then k else s ++ ":" ++ k
  | none => k

/-- The `WRITE_OPERATIONS` set of the interceptor. -/
def WRITE_OPERATIONS : List String :=
  ["create", "createMany", "updateMany", "upsert", "update", "delete"]

/-- Classification `isWrite(op)`. -/
def isWrite (op : String) : Bool := WRITE_OPERATIONS.contains op

/-- Operations taking required arguments (from `types.ts`). -/
def REQUIRED_ARGS_OPERATIONS : List String :=
  ["delete", "findUnique", "findUniqueOrThrow", "groupBy", "update", "upsert"]

/-- Operations taking optional arguments (from `types.ts`). -/
def OPTIONAL_ARGS_OPERATIONS : List String :=
  ["findMany", "findFirst", "findFirstOrThrow", "count"]

/-- The cacheable operation set `CACHE_OPERATIONS`. -/
def CACHE_OPERATIONS : List String :=
  REQUIRED_ARGS_OPERATIONS ++ OPTIONAL_ARGS_OPERATIONS

/-- One entry of a raw `uncache` option: a string key or an object
with optional `key` and `namespace` fields. -/
inductive UEntry where
  | ustr (s : String)
  | uobj (key : Option String) (nsp : Option String)

/-- A raw uncache value: a scalar entry or an array of entries. -/
inductive URaw where
  | one (e : UEntry)
  | many (es : List UEntry)

/-- The `uncache` option of a call: absent, a raw value, or a
function of the query result. -/
inductive UncacheOpt where
  | undef
  | raw (r : URaw)
  | func (f : Val → URaw)

/-- JavaScript truthiness of a raw uncache option (`!opt`): the empty
string is falsy, every object, array and non-empty string is truthy. -/
def rawFalsy : URaw → Bool
  | .one (.ustr s) => s.isEmpty
  | .one (.uobj _ _) => false
  | .many _ => false

/-- Per-entry mapping inside `toUncache`: strings pass through, an
object contributes `ns(entry.key, entry.namespace)` when its `key` is
truthy, anything else becomes `undefined` (dropped later). -/
def uncacheEntryKey : UEntry → Option String
  | .ustr s => some s
  | .uobj k n =>
    match k with
    | some s => if s.isEmpty then none else some (ns s n)
    | none => none

/-- List view of a raw uncache value (`Array.isArray` dispatch). -/
def urawList : URaw → List UEntry
  | .one e => [e]
  | .many es => es

/-- Key extraction `toUncache(opt, res)`: resolve the option (calling
it on the result when it is a function), flatten, map entries and keep
only non-empty strings. -/
def toUncache (opt : UncacheOpt) (res : Val) : List String :=
  match opt with
  | .undef => []
  | .raw r =>
    if rawFalsy r then []
    else ((urawList r).filterMap uncacheEntryKey).filter (fun s => !s.isEmpty)
  | .func f =>
    ((urawList (f res)).filterMap uncacheEntryKey).filter (fun s => !s.isEmpty)

/-- Hit predicate `isCacheHit(value)`: anything other than the
`undefined` marker counts as a hit (a stored null included). -/
def isCacheHit (value : Option Val) : Bool := value != none

/-- Recovery wrapper `safeGet`: a rejected store `get` degrades to
`undefined` (a miss). -/
def safeGet (r : GetR) : Option Val :=
  match r with
  | .error _ => none
  | .ok v => v

/-- Local view of the cache store, as an association list. -/
abbrev CacheState := List (String × Val)

/-- Store lookup. -/
def csGet : CacheState → String → Option Val
  | [], _ => none
  | (k, v) :: t, key => if k = key then some v else csGet t key

/-- Store deletion of a single key. -/
def csDel : CacheState → String → CacheState
  | [], _ => []
  | (k, v) :: t, key => if k = key then csDel t key else (k, v) :: csDel t key

/-- Store write (replace any previous entry at the key). -/
def csSet (σ : CacheState) (key : String) (v : Val) : CacheState :=
  (key, v) :: csDel σ key

/-- Deletion of a key list, from `deleteMany` (a missing `deleteMany`
falls back to individual deletes with the same effect). -/
def csDelMany (σ : CacheState) (keys : List String) : CacheState :=
  keys.foldl csDel σ

/-- Resolved lock options (the `LockOptions` record).  The source
field `prefix` is called `prefixValue` here. -/
structure LockOptions where
  enabled : Bool
  prefixValue : String
  ttl : ℕ
  waitTimeout : ℕ
  retryDelay : ℕ
  retryJitter : ℕ
  deriving DecidableEq, Repr

/-- The `DEFAULT_LOCK_OPTIONS` constant. -/
def DEFAULT_LOCK_OPTIONS : LockOptions :=
  { enabled := true
    prefixValue := "prisma-cache-lock"
    ttl := 5000
    waitTimeout := 2000
    retryDelay := 40
    retryJitter := 20 }

/-- Semantics of `LOCK_RELEASE_SCRIPT` as executed atomically by the
store: given the current value at the lock key and the caller's token,
return the new value and whether a delete happened. -/
def lockReleaseScript (cur : Option String) (token : String) :
    Option String × Bool :=
  if cur = some token then (none, true) else (cur, false)

/-- A JavaScript number as seen by the lock-option validation. -/
inductive JSNum where
  | nan
  | inf
  | ninf
  | q (x : ℚ)

/-- Validation helper `toPositive(value, fallback)`: a finite number
strictly greater than zero is floored, anything else (absent,
non-number, `NaN`, infinite, zero or negative) yields the fallback. -/
def toPositive (value : Option JSNum) (fallback : ℕ) : ℕ :=
  match value with
  | some (.q x) => if 0 < x then (⌊x⌋).toNat else fallback
  | some _ => fallback
  | none => fallback

/-- The raw `lock` configuration object (each field may be absent; a
`prefixValue` of `none` also covers a non-string `prefix`). -/
structure LockCfgObj where
  enabled : Option Bool
  prefixValue : Option String
  ttl : Option JSNum
  waitTimeout : Option JSNum
  retryDelay : Option JSNum
  retryJitter : Option JSNum

/-- The `lock` field of the extension configuration: `false`, absent,
or an object. -/
inductive LockConfigInput where
  | off
  | undef
  | cfg (c : LockCfgObj)

/-- Option resolution `resolveLockOptions(lock)`. -/
def resolveLockOptions : LockConfigInput → LockOptions
  | .off => { DEFAULT_LOCK_OPTIONS with enabled := false }
  | .undef => DEFAULT_LOCK_OPTIONS
  | .cfg c =>
    { enabled := c.enabled.getD DEFAULT_LOCK_OPTIONS.enabled
      prefixValue :=
        match c.prefixValue with
        | some s =>
          if s.trim.length = 0 then DEFAULT_LOCK_OPTIONS.prefixValue else s
        | none => DEFAULT_LOCK_OPTIONS.prefixValue
      ttl := toPositive c.ttl DEFAULT_LOCK_OPTIONS.ttl
      waitTimeout := toPositive c.waitTimeout DEFAULT_LOCK_OPTIONS.waitTimeout
      retryDelay := toPositive c.retryDelay DEFAULT_LOCK_OPTIONS.retryDelay
      retryJitter := toPositive c.retryJitter DEFAULT_LOCK_OPTIONS.retryJitter }

/-- Acquisition `tryAcquireLock`: the conditional `SET NX PX` either
resolves with a success flag or rejects, and a rejection counts as
not acquired. -/
def tryAcquireLock (r : Except Unit Bool) : Bool :=
  match r with
  | .ok b => b
  | .error _ => false

/-- Jitter computation `Math.floor(Math.random() * (retryJitter + 1))`
for one drawn random `r`. -/
def jitterOf (r : ℚ) (retryJitter : ℕ) : ℕ :=
  (⌊r * (retryJitter + 1)⌋).toNat

/-- Waiter loop `waitForCacheFill`: while the deadline has not passed,
sleep `retryDelay` plus jitter, poll the cache, and return on the
first hit.  Time is tracked as the remaining budget; each sleep
consumes at least one unit because Node clamps `setTimeout` delays
below one millisecond up to one.  Returns the hit (or `none` on
timeout) together with the number of polls performed. -/
def waitForCacheFill (options : LockOptions) (randoms : ℕ → ℚ)
    (polls : ℕ → GetR) (remaining i : ℕ) : Option Val × ℕ :=
  if h : remaining = 0 then (none, i)
  else
    let jitter := jitterOf (randoms i) options.retryJitter
    let sleepMs := max 1 (options.retryDelay + jitter)
    match safeGet (polls i) with
    | some v => (some v, i + 1)
    | none => waitForCacheFill options randoms polls (remaining - sleepMs) (i + 1)
  termination_by remaining
  decreasing_by
    exact Nat.sub_lt (Nat.pos_of_ne_zero h)
      (lt_of_lt_of_le Nat.zero_lt_one (le_max_left 1 _))

/-- The static cache directive forms plus the two dynamic ones.
`undef` is an absent directive, `boolv false` disables caching,
`objFn` carries a result-derived key function. -/
inductive CacheOpt where
  | undef
  | boolv (b : Bool)
  | numv (n : ℚ)
  | strv (s : String)
  | obj (key : Option String) (nsp : Option String) (ttl : Option ℚ)
  | arr
  | objFn (keyFn : Val → String) (ttl : Option ℚ)

/-- Key and TTL resolution `resolveStaticCacheConfig(model, cOpt,
queryArgs)` for the non-function directive shapes. -/
def resolveStaticCacheConfig (hashFn : QArgs → String) (model : String)
    (c : CacheOpt) (queryArgs : QArgs) : String × Option ℚ :=
  match c with
  | .strv s => (s, none)
  | .numv n => (composedKey hashFn model queryArgs, some n)
  | .obj k n t => (ns (k.getD (composedKey hashFn model queryArgs)) n, t)
  | _ => (composedKey hashFn model queryArgs, none)

/-- Directive shapes that reach `resolveStaticCacheConfig` in the
interceptor (neither absent, nor `false`, nor a key factory). -/
def isStaticDirective : CacheOpt → Bool
  | .undef => false
  | .boolv false => false
  | .objFn _ _ => false
  | _ => true

/-- The in-flight registry: the process-wide `Map` from resolved cache
key to the identifier of the pending future. -/
abbrev SFReg := List (String × ℕ)

/-- Registry lookup (`inflight.get`). -/
def regLookup : SFReg → String → Option ℕ
  | [], _ => none
  | (k, v) :: t, key => if k = key then some v else regLookup t key

/-- Registry removal (`inflight.delete`). -/
def regErase : SFReg → String → SFReg
  | [], _ => []
  | (k, v) :: t, key =>
    if k = key then regErase t key else (k, v) :: regErase t key

/-- Registry insertion (`inflight.set`), observationally a
replace-or-add at the key. -/
def regSet (reg : SFReg) (key : String) (fid : ℕ) : SFReg :=
  regErase reg key ++ [(key, fid)]

/-- Per-key uniqueness of registry entries. -/
def keysNodup (reg : SFReg) : Prop := (reg.map Prod.fst).Nodup

/-- Result of one pass through the coordinator: the caller either
joins an already-pending future or runs the body itself. -/
inductive SFOut (α : Type) where
  | joined (fid : ℕ)
  | ran (a : α)

/-- One `runSingleFlight` step together with the registry as visible
while the execution is pending (`during`) and once it settled
(`after`). -/
structure SFStep (α : Type) where
  out : SFOut α
  during : SFReg
  after : SFReg

/-- The single-flight coordinator `runSingleFlight(key, fn)`: reuse a
pending future when one is registered, otherwise register a fresh one,
run the body and unconditionally delete the entry when it settles. -/
def runSingleFlight {α : Type} (reg : SFReg) (key : String) (fid : ℕ)
    (body : Unit → α) : SFStep α :=
  match regLookup reg key with
  | some p => ⟨.joined p, reg, reg⟩
  | none =>
    let during := regSet reg key fid
    ⟨.ran (body ()), during, regErase during key⟩

/-- Responses of all external collaborators for one intercepted call.
Gets are indexed by call site; `polls` and `randoms` feed the waiter
loop; `lockCur` is the lock record's value at release time. -/
structure CallEnv where
  firstGet : GetR
  secondGet : GetR
  lockedGet : GetR
  acquire : Except Unit Bool
  releaseErr : Bool
  queryR : Except String Val
  setErr : Bool
  delErr : Bool
  polls : ℕ → GetR
  randoms : ℕ → ℚ
  token : String
  lockCur : Option String

/-- Extension-level configuration: the resolved lock options, whether
a lock-capable redis client was found, and the opaque argument hash. -/
structure ExtConfig where
  lockOptions : LockOptions
  hasRedis : Bool
  hashFn : QArgs → String

/-- The destructured call arguments `{ cache, uncache, ...queryArgs }`. -/
structure CallArgs where
  cOpt : CacheOpt
  uncache : UncacheOpt
  queryArgs : QArgs

/-- What one intercepted call returns: a settled query/cache result,
or the pending future of another in-process caller. -/
inductive ORes where
  | settled (r : Except String Val)
  | joined (fid : ℕ)
  deriving Repr

/-- Observable outcome of one intercepted call: the returned result
plus the interaction trace (query invocation and its arguments, cache
reads, cache write attempts, invalidation deletions, lock release
attempts) and the final store and registry states. -/
structure Outcome where
  result : ORes
  queried : Bool
  queriedArgs : Option QArgs
  reads : List String
  writes : List (String × Val × Option ℚ)
  uncacheDels : List String
  releases : List (String × String)
  finalCache : CacheState
  lockAfter : Option String
  sfKey : Option String
  regAfter : SFReg

/-- Intermediate result of the execute helpers. -/
structure ExecOut where
  res : Except String Val
  dels : List String
  writes : List (String × Val × Option ℚ)
  σ : CacheState

/-- Helper `executeQuery(query, queryArgs, uncache)`: run the query
and, on success, apply the best-effort invalidation
(`processUncache`, whose store failure is swallowed). -/
def executeQuery (env : CallEnv) (σ : CacheState) (u : UncacheOpt) : ExecOut :=
  match env.queryR with
  | .error e => ⟨.error e, [], [], σ⟩
  | .ok v =>
    let dels := toUncache u v
    ⟨.ok v, dels, [], if env.delErr then σ else csDelMany σ dels⟩

/-- Effect of `safeSet`: a failed store write is a no-op. -/
def safeSetEff (env : CallEnv) (σ : CacheState) (key : String) (v : Val) :
    CacheState :=
  if env.setErr then σ else csSet σ key v

/-- Helper `executeQueryAndCache(key, ttl, ...)`: execute, then
best-effort write the result at the key. -/
def executeQueryAndCache (env : CallEnv) (σ : CacheState) (u : UncacheOpt)
    (key : String) (ttl : Option ℚ) : ExecOut :=
  let e := executeQuery env σ u
  match e.res with
  | .error _ => e
  | .ok v =>
    { e with writes := [(key, v, ttl)], σ := safeSetEff env e.σ key v }

/-- Lock-record value after `releaseLock` (the compare-and-delete
script, whose own failure is swallowed). -/
def releaseEff (env : CallEnv) : Option String :=
  if env.releaseErr then env.lockCur
  else (lockReleaseScript env.lockCur env.token).1

/-- The interceptor `$allOperations({ model, operation, args, query })`
of the extension, deterministic in the collaborator environment.
`reg` is the in-flight registry at entry, `fid` the identifier the
call would register, `σ` the local view of the cache store. -/
def allOperations (cfg : ExtConfig) (env : CallEnv) (model operation : String)
    (args : CallArgs) (reg : SFReg) (fid : ℕ) (σ : CacheState) : Outcome :=
  if CACHE_OPERATIONS.contains operation then
    match args.cOpt with
    | .undef | .boolv false =>
      let e := executeQuery env σ args.uncache
      { result := .settled e.res, queried := true,
        queriedArgs := some args.queryArgs, reads := [], writes := [],
        uncacheDels := e.dels, releases := [], finalCache := e.σ,
        lockAfter := env.lockCur, sfKey := none, regAfter := reg }
    | .objFn keyFn ttl =>
      let e := executeQuery env σ args.uncache
      match e.res with
      | .error err =>
        { result := .settled (.error err), queried := true,
          queriedArgs := some args.queryArgs, reads := [], writes := [],
          uncacheDels := e.dels, releases := [], finalCache := e.σ,
          lockAfter := env.lockCur, sfKey := none, regAfter := reg }
      | .ok v =>
        let k := keyFn v
        { result := .settled (.ok v), queried := true,
          queriedArgs := some args.queryArgs, reads := [],
          writes := [(k, v, ttl)], uncacheDels := e.dels, releases := [],
          finalCache := safeSetEff env e.σ k v,
          lockAfter := env.lockCur, sfKey := none, regAfter := reg }
    | c =>
      let kt := resolveStaticCacheConfig cfg.hashFn model c args.queryArgs
      let key := kt.1
      let ttl := kt.2
      if isWrite operation then
        let e := executeQueryAndCache env σ args.uncache key ttl
        { result := .settled e.res, queried := true,
          queriedArgs := some args.queryArgs, reads := [], writes := e.writes,
          uncacheDels := e.dels, releases := [], finalCache := e.σ,
          lockAfter := env.lockCur, sfKey := none, regAfter := reg }
      else
        match safeGet env.firstGet with
        | some v =>
          { result := .settled (.ok v), queried := false, queriedArgs := none,
            reads := [key], writes := [], uncacheDels := [], releases := [],
            finalCache := σ, lockAfter := env.lockCur, sfKey := none,
            regAfter := reg }
        | none =>
          let body : Unit → Outcome := fun _ =>
            match safeGet env.secondGet with
            | some v =>
              { result := .settled (.ok v), queried := false,
                queriedArgs := none, reads := [key], writes := [],
                uncacheDels := [], releases := [], finalCache := σ,
                lockAfter := env.lockCur, sfKey := none, regAfter := reg }
            | none =>
              if !cfg.lockOptions.enabled || !cfg.hasRedis then
                let e := executeQueryAndCache env σ args.uncache key ttl
                { result := .settled e.res, queried := true,
                  queriedArgs := some args.queryArgs, reads := [key],
                  writes := e.writes, uncacheDels := e.dels, releases := [],
                  finalCache := e.σ, lockAfter := env.lockCur, sfKey := none,
                  regAfter := reg }
              else
                let lockKey := cfg.lockOptions.prefixValue ++ ":" ++ key
                if tryAcquireLock env.acquire then
                  match safeGet env.lockedGet with
                  | some v =>
                    { result := .settled (.ok v), queried := false,
                      queriedArgs := none, reads := [key, key], writes := [],
                      uncacheDels := [],
                      releases := [(lockKey, env.token)], finalCache := σ,
                      lockAfter := releaseEff env, sfKey := none,
                      regAfter := reg }
                  | none =>
                    let e := executeQueryAndCache env σ args.uncache key ttl
                    { result := .settled e.res, queried := true,
                      queriedArgs := some args.queryArgs,
                      reads := [key, key], writes := e.writes,
                      uncacheDels := e.dels,
                      releases := [(lockKey, env.token)], finalCache := e.σ,
                      lockAfter := releaseEff env, sfKey := none,
                      regAfter := reg }
                else
                  let w := waitForCacheFill cfg.lockOptions env.randoms
                    env.polls cfg.lockOptions.waitTimeout 0
                  match w.1 with
                  | some v =>
                    { result := .settled (.ok v), queried := false,
                      queriedArgs := none,
                      reads := key :: List.replicate w.2 key, writes := [],
                      uncacheDels := [], releases := [], finalCache := σ,
                      lockAfter := env.lockCur, sfKey := none,
                      regAfter := reg }
                  | none =>
                    let e := executeQueryAndCache env σ args.uncache key ttl
                    { result := .settled e.res, queried := true,
                      queriedArgs := some args.queryArgs,
                      reads := key :: List.replicate w.2 key,
                      writes := e.writes, uncacheDels := e.dels,
                      releases := [], finalCache := e.σ,
                      lockAfter := env.lockCur, sfKey := none,
                      regAfter := reg }
          let step := runSingleFlight reg key fid body
          match step.out with
          | .joined p =>
            { result := .joined p, queried := false, queriedArgs := none,
              reads := [key], writes := [], uncacheDels := [], releases := [],
              finalCache := σ, lockAfter := env.lockCur, sfKey := none,
              regAfter := step.after }
          | .ran o =>
            { o with
                reads := key :: o.reads
                sfKey := some key
                regAfter := step.after }
  else
    { result := .settled env.queryR, queried := true, queriedArgs := none,
      reads := [], writes := [], uncacheDels := [], releases := [],
      finalCache := σ, lockAfter := env.lockCur, sfKey := none,
      regAfter := reg }

/-! Registry lemmas shared by the coordinator theorems. -/

theorem regLookup_regErase_self (reg : SFReg) (key : String) :
    regLookup (regErase reg key) key = none := by
  induction reg with
  | nil => rfl
  | cons p t ih =>
    cases p with
    | mk k v =>
      by_cases hk : k = key
      · simp [regErase, hk, ih]
      · simp [regErase, hk, regLookup, ih]

theorem regLookup_regSet_self (reg : SFReg) (key : String) (fid : ℕ) :
    regLookup (regSet reg key fid) key = some fid := by
  induction reg with
  | nil => simp [regSet, regErase, regLookup]
  | cons p t ih =>
    cases p with
    | mk k v =>
      by_cases hk : k = key
      · simpa [regSet, regErase, hk] using ih
      · simpa [regSet, regErase, hk, regLookup] using ih

theorem mem_keys_regErase {a : String} {reg : SFReg} {key : String}
    (h : a ∈ (regErase reg key).map Prod.fst) : a ∈ reg.map Prod.fst := by
  induction reg with
  | nil => simpa [regErase] using h
  | cons p t ih =>
    cases p with
    | mk k v =>
      by_cases hk : k = key
      · simp only [regErase, if_pos hk] at h
        simp [ih h]
      · simp only [regErase, if_neg hk, List.map_cons, List.mem_cons] at h
        rcases h with h | h
        · simp [h]
        · simp [ih h]

theorem key_not_mem_keys_regErase (reg : SFReg) (key : String) :
    key ∉ (regErase reg key).map Prod.fst := by
  induction reg with
  | nil => simp [regErase]
  | cons p t ih =>
    cases p with
    | mk k v =>
      by_cases hk : k = key
      · simpa [regErase, hk] using ih
      · simp only [regErase, if_neg hk, List.map_cons, List.mem_cons]
        rintro (h | h)
        · exact hk h.symm
        · exact ih h

theorem keysNodup_regErase {reg : SFReg} (key : String)
    (h : keysNodup reg) : keysNodup (regErase reg key) := by
  induction reg with
  | nil => simpa [regErase] using h
  | cons p t ih =>
    cases p with
    | mk k v =>
      simp only [keysNodup, List.map_cons, List.nodup_cons] at h
      by_cases hk : k = key
      · simpa [regErase, hk] using ih h.2
      · simp only [keysNodup, regErase, if_neg hk, List.map_cons,
          List.nodup_cons]
        exact ⟨fun hm => h.1 (mem_keys_regErase hm), ih h.2⟩

theorem keysNodup_regSet {reg : SFReg} (key : String) (fid : ℕ)
    (h : keysNodup reg) : keysNodup (regSet reg key fid) := by
  have he := keysNodup_regErase key h
  simp only [keysNodup, regSet, List.map_append, List.map_cons, List.map_nil,
    List.nodup_append, List.nodup_cons, List.not_mem_nil, not_false_iff,
    List.nodup_nil, and_true, true_and] at he ⊢
  refine ⟨he, fun a ha hmem => ?_⟩
  rw [List.mem_singleton] at hmem
  exact key_not_mem_keys_regErase reg key (hmem ▸ ha)

/-- C1. The single-flight coordinator: a registered pending future for
the key is returned as-is (all concurrent callers for the key share
the same eventual outcome) and the registry is untouched; otherwise
the body runs under a fresh entry at the key, the registry keeps at
most one entry per key at every instant (entry, during the run, after
settlement), and the entry is removed once the execution settles. -/
theorem runSingleFlight_spec {α : Type} (reg : SFReg) (key : String)
    (fid : ℕ) (body : Unit → α) (hnd : keysNodup reg) :
    (∀ p, regLookup reg key = some p →
      (runSingleFlight reg key fid body).out = SFOut.joined p ∧
      (runSingleFlight reg key fid body).during = reg ∧
      (runSingleFlight reg key fid body).after = reg) ∧
    (regLookup reg key = none →
      (runSingleFlight reg key fid body).out = SFOut.ran (body ()) ∧
      regLookup (runSingleFlight reg key fid body).during key = some fid ∧
      keysNodup (runSingleFlight reg key fid body).during ∧
      (runSingleFlight reg key fid body).after =
        regErase (runSingleFlight reg key fid body).during key ∧
      regLookup (runSingleFlight reg key fid body).after key = none ∧
      keysNodup (runSingleFlight reg key fid body).after) := by
  constructor
  · intro p hp
    simp [runSingleFlight, hp]
  · intro hp
    refine ⟨by simp [runSingleFlight, hp], ?_, ?_,
      by simp [runSingleFlight, hp], ?_, ?_⟩
    · simp only [runSingleFlight, hp]
      exact regLookup_regSet_self reg key fid
    · simp only [runSingleFlight, hp]
      exact keysNodup_regSet key fid hnd
    · simp only [runSingleFlight, hp]
      exact regLookup_regErase_self _ key
    · simp only [runSingleFlight, hp]
      exact keysNodup_regErase key (keysNodup_regSet key fid hnd)

/-- C1 witness at concrete registries. -/
theorem runSingleFlight_spec_witness :
    (runSingleFlight [("k", 3)] "k" 7 (fun _ => 0)).out = SFOut.joined 3 ∧
    (runSingleFlight ([] : SFReg) "k" 7 (fun _ => 0)).out = SFOut.ran 0 ∧
    regLookup (runSingleFlight ([] : SFReg) "k" 7 (fun _ => 0)).after "k" =
      none := by
  refine ⟨?_, ?_, ?_⟩
  · exact ((runSingleFlight_spec [("k", 3)] "k" 7 (fun _ => 0)
      (by simp [keysNodup])).1 3 rfl).1
  · exact ((runSingleFlight_spec ([] : SFReg) "k" 7 (fun _ => 0)
      (by simp [keysNodup])).2 rfl).1
  · exact ((runSingleFlight_spec ([] : SFReg) "k" 7 (fun _ => 0)
      (by simp [keysNodup])).2 rfl).2.2.2.2.1

/-- C10 counterexample: the lock configuration object with
`ttl: 0.5` — a finite positive number — resolves to a `ttl` of `0`,
so the resolved lock options do not always contain positive timings. -/
theorem lockOptions_positivity_counterexample :
    (resolveLockOptions (LockConfigInput.cfg
      ⟨none, none, some (JSNum.q (1 / 2)), none, none, none⟩)).ttl = 0 ∧
    ¬ (0 < (resolveLockOptions (LockConfigInput.cfg
      ⟨none, none, some (JSNum.q (1 / 2)), none, none, none⟩)).ttl) := by
  constructor
  · norm_num [resolveLockOptions, toPositive]
  · norm_num [resolveLockOptions, toPositive]

/-- C10 (amended). Lock-option resolution: each timing field that is
absent, `NaN`, infinite, zero or negative is replaced by its default
(5000, 2000, 40, 20), every finite positive value is floored to a
natural number (a value below one floors to zero, so the result is
only guaranteed nonnegative, and is positive whenever the supplied
value is at least one), the absent defaults are returned verbatim, and
a `prefix` that is not a non-blank string is replaced by
"prisma-cache-lock". -/
theorem lockOptions_resolution :
    (∀ fb, toPositive none fb = fb) ∧
    (∀ fb, toPositive (some JSNum.nan) fb = fb ∧
      toPositive (some JSNum.inf) fb = fb ∧
      toPositive (some JSNum.ninf) fb = fb) ∧
    (∀ (x : ℚ) fb, x ≤ 0 → toPositive (some (JSNum.q x)) fb = fb) ∧
    (∀ (x : ℚ) fb, 0 < x → toPositive (some (JSNum.q x)) fb = (⌊x⌋).toNat) ∧
    (∀ (x : ℚ) fb, 1 ≤ x → 1 ≤ toPositive (some (JSNum.q x)) fb) ∧
    (resolveLockOptions LockConfigInput.undef = DEFAULT_LOCK_OPTIONS) ∧
    (resolveLockOptions LockConfigInput.off =
      { DEFAULT_LOCK_OPTIONS with enabled := false }) ∧
    (DEFAULT_LOCK_OPTIONS.ttl = 5000 ∧ DEFAULT_LOCK_OPTIONS.waitTimeout = 2000 ∧
      DEFAULT_LOCK_OPTIONS.retryDelay = 40 ∧
      DEFAULT_LOCK_OPTIONS.retryJitter = 20 ∧
      DEFAULT_LOCK_OPTIONS.prefixValue = "prisma-cache-lock") ∧
    (∀ c, (resolveLockOptions (LockConfigInput.cfg c)).ttl =
        toPositive c.ttl 5000 ∧
      (resolveLockOptions (LockConfigInput.cfg c)).waitTimeout =
        toPositive c.waitTimeout 2000 ∧
      (resolveLockOptions (LockConfigInput.cfg c)).retryDelay =
        toPositive c.retryDelay 40 ∧
      (resolveLockOptions (LockConfigInput.cfg c)).retryJitter =
        toPositive c.retryJitter 20) ∧
    (∀ c, c.prefixValue = none →
      (resolveLockOptions (LockConfigInput.cfg c)).prefixValue =
        "prisma-cache-lock") ∧
    (∀ c s, c.prefixValue = some s → s.trim.length = 0 →
      (resolveLockOptions (LockConfigInput.cfg c)).prefixValue =
        "prisma-cache-lock") ∧
    (∀ c s, c.prefixValue = some s → s.trim.length ≠ 0 →
      (resolveLockOptions (LockConfigInput.cfg c)).prefixValue = s) := by
  refine ⟨fun fb => rfl, fun fb => ⟨rfl, rfl, rfl⟩, ?_, ?_, ?_, rfl, rfl,
    ⟨rfl, rfl, rfl, rfl, rfl⟩, fun c => ⟨rfl, rfl, rfl, rfl⟩, ?_, ?_, ?_⟩
  · intro x fb hx
    simp [toPositive, not_lt.mpr hx]
  · intro x fb hx
    simp [toPositive, hx]
  · intro x fb hx
    have h0 : (0 : ℚ) < x := lt_of_lt_of_le one_pos hx
    have hf : (1 : ℤ) ≤ ⌊x⌋ := by
      rw [Int.le_floor]
      exact_mod_cast hx
    simp only [toPositive, if_pos h0]
    omega
  · intro c hc
    simp [resolveLockOptions, DEFAULT_LOCK_OPTIONS, hc]
  · intro c s hc hs
    simp [resolveLockOptions, DEFAULT_LOCK_OPTIONS, hc, hs]
  · intro c s hc hs
    simp [resolveLockOptions, hc, hs]

/-- C10 witness at concrete configuration values. -/
theorem lockOptions_resolution_witness :
    toPositive (some (JSNum.q (-3))) 40 = 40 ∧
    toPositive (some (JSNum.q (5 / 2))) 5000 = 2 ∧
    1 ≤ toPositive (some (JSNum.q (5 / 2))) 5000 := by
  refine ⟨?_, ?_, ?_⟩
  · exact lockOptions_resolution.2.2.1 (-3) 40 (by norm_num)
  · have h := lockOptions_resolution.2.2.2.1 (5 / 2) 5000 (by norm_num)
    rw [h]
    have h2 : ⌊(5 / 2 : ℚ)⌋ = 2 := by norm_num
    rw [h2]
    rfl
  · exact lockOptions_resolution.2.2.2.2.1 (5 / 2) 5000 (by norm_num)

/-! Store and waiter lemmas shared below. -/

theorem csGet_csSet_self (σ : CacheState) (k : String) (v : Val) :
    csGet (csSet σ k v) k = some v := by
  simp [csSet, csGet]

theorem waitForCacheFill_all_miss (options : LockOptions) (randoms : ℕ → ℚ)
    (polls : ℕ → GetR) (h : ∀ j, safeGet (polls j) = none) :
    ∀ remaining i, (waitForCacheFill options randoms polls remaining i).1 =
      none := by
  intro remaining
  induction remaining using Nat.strong_induction_on with
  | _ n ih =>
    intro i
    rw [waitForCacheFill]
    split
    · rfl
    · rename_i hn
      simp only [h i]
      exact ih _ (Nat.sub_lt (Nat.pos_of_ne_zero hn)
        (lt_of_lt_of_le Nat.zero_lt_one (le_max_left 1 _))) (i + 1)

theorem waitForCacheFill_polls_le (options : LockOptions) (randoms : ℕ → ℚ)
    (polls : ℕ → GetR) :
    ∀ remaining i, (waitForCacheFill options randoms polls remaining i).2 ≤
      i + remaining := by
  intro remaining
  induction remaining using Nat.strong_induction_on with
  | _ n ih =>
    intro i
    rw [waitForCacheFill]
    split
    · omega
    · rename_i hn
      rcases hs : safeGet (polls i) with _ | v
      · simp only [hs]
        have hsl : 1 ≤ max 1 (options.retryDelay +
            jitterOf (randoms i) options.retryJitter) := le_max_left 1 _
        have := ih (n - max 1 (options.retryDelay +
            jitterOf (randoms i) options.retryJitter))
          (Nat.sub_lt (Nat.pos_of_ne_zero hn)
            (lt_of_lt_of_le Nat.zero_lt_one hsl)) (i + 1)
        omega
      · simp only [hs]
        omega

theorem jitterOf_le (r : ℚ) (J : ℕ) (h0 : 0 ≤ r) (h1 : r < 1) :
    jitterOf r J ≤ J := by
  have hJ : (0 : ℚ) < (J : ℚ) + 1 := by positivity
  have hmul : r * ((J : ℚ) + 1) < (J : ℚ) + 1 := by
    calc r * ((J : ℚ) + 1) < 1 * ((J : ℚ) + 1) :=
          mul_lt_mul_of_pos_right h1 hJ
    _ = (J : ℚ) + 1 := one_mul _
  have hf : ⌊r * ((J : ℚ) + 1)⌋ < (J : ℤ) + 1 := by
    rw [Int.floor_lt]
    push_cast
    exact hmul
  simp only [jitterOf]
  omega

/-- C3. An intercepted call whose cache directive is absent or the
boolean `false` bypasses the cache entirely: the query runs with the
remaining arguments, the uncache sequence is resolved and applied
(best effort), the query result is returned, and no cache read or
cache write happens. -/
theorem disabled_directive_bypasses_cache
    (fg sg lg : GetR) (acq : Except Unit Bool) (relErr : Bool) (v : Val)
    (setE delE : Bool) (polls : ℕ → GetR) (rnds : ℕ → ℚ) (tok : String)
    (lcur : Option String) (lockOpts : LockOptions) (hasRedis : Bool)
    (hashFn : QArgs → String) (model op : String) (u : UncacheOpt)
    (qa : QArgs) (reg : SFReg) (fid : ℕ) (σ : CacheState) (c : CacheOpt)
    (hop : CACHE_OPERATIONS.contains op = true)
    (hc : c = CacheOpt.undef ∨ c = CacheOpt.boolv false) :
    allOperations ⟨lockOpts, hasRedis, hashFn⟩
      ⟨fg, sg, lg, acq, relErr, .ok v, setE, delE, polls, rnds, tok, lcur⟩
      model op ⟨c, u, qa⟩ reg fid σ =
    { result := .settled (.ok v), queried := true, queriedArgs := some qa,
      reads := [], writes := [], uncacheDels := toUncache u v,
      releases := [],
      finalCache := if delE then σ else csDelMany σ (toUncache u v),
      lockAfter := lcur, sfKey := none, regAfter := reg } := by
  have hmem : op ∈ CACHE_OPERATIONS := by simpa using hop
  rcases hc with rfl | rfl <;> simp [allOperations, hmem, executeQuery]

/-- C3 witness at a concrete disabled call. -/
theorem disabled_directive_bypasses_cache_witness :
    allOperations ⟨DEFAULT_LOCK_OPTIONS, true, fun _ => "h"⟩
      ⟨.ok none, .ok none, .ok none, .ok true, false, .ok (Val.vint 1),
        false, false, fun _ => .ok none, fun _ => 0, "t", none⟩
      "user" "findFirst"
      ⟨CacheOpt.undef, UncacheOpt.raw (URaw.one (UEntry.ustr "u1")), "qa"⟩
      [] 0 [("u1", Val.vint 9)] =
    { result := .settled (.ok (Val.vint 1)), queried := true,
      queriedArgs := some "qa", reads := [], writes := [],
      uncacheDels := ["u1"], releases := [], finalCache := [],
      lockAfter := none, sfKey := none, regAfter := [] } := by
  have h := disabled_directive_bypasses_cache
    (.ok none) (.ok none) (.ok none) (.ok true) false (Val.vint 1)
    false false (fun _ => .ok none) (fun _ => 0) "t" none
    DEFAULT_LOCK_OPTIONS true (fun _ => "h") "user" "findFirst"
    (UncacheOpt.raw (URaw.one (UEntry.ustr "u1"))) "qa" [] 0
    [("u1", Val.vint 9)] CacheOpt.undef (by decide) (Or.inl rfl)
  simpa [toUncache, rawFalsy, urawList, uncacheEntryKey, csDelMany,
    csDel] using h

/-- C4. A cache hit on the read path is decided exactly by the value
not being the `undefined` marker: a stored null is a hit and is
returned to the caller without querying, while only absence proceeds
to query execution. -/
theorem null_hit_distinguished_from_absence :
    (∀ v : Option Val, isCacheHit v = true ↔ v ≠ none) ∧
    (isCacheHit (some Val.vnull) = true) ∧
    (∀ (sg lg : GetR) (acq : Except Unit Bool) (relErr setE delE : Bool)
      (qR : Except String Val) (polls : ℕ → GetR) (rnds : ℕ → ℚ)
      (tok : String) (lcur : Option String) (lockOpts : LockOptions)
      (hasRedis : Bool) (hashFn : QArgs → String) (model op s : String)
      (u : UncacheOpt) (qa : QArgs) (reg : SFReg) (fid : ℕ) (σ : CacheState),
      CACHE_OPERATIONS.contains op = true → isWrite op = false →
      (allOperations ⟨lockOpts, hasRedis, hashFn⟩
        ⟨.ok (some Val.vnull), sg, lg, acq, relErr, qR, setE, delE, polls,
          rnds, tok, lcur⟩
        model op ⟨.strv s, u, qa⟩ reg fid σ).result =
          .settled (.ok Val.vnull) ∧
      (allOperations ⟨lockOpts, hasRedis, hashFn⟩
        ⟨.ok (some Val.vnull), sg, lg, acq, relErr, qR, setE, delE, polls,
          rnds, tok, lcur⟩
        model op ⟨.strv s, u, qa⟩ reg fid σ).queried = false) ∧
    (∀ (lg : GetR) (acq : Except Unit Bool) (relErr setE delE : Bool)
      (v : Val) (polls : ℕ → GetR) (rnds : ℕ → ℚ) (tok : String)
      (lcur : Option String) (pfx : String) (t1 t2 t3 t4 : ℕ)
      (hasRedis : Bool) (hashFn : QArgs → String) (model op s : String)
      (u : UncacheOpt) (qa : QArgs) (fid : ℕ) (σ : CacheState),
      CACHE_OPERATIONS.contains op = true → isWrite op = false →
      (allOperations ⟨⟨false, pfx, t1, t2, t3, t4⟩, hasRedis, hashFn⟩
        ⟨.ok none, .ok none, lg, acq, relErr, .ok v, setE, delE, polls,
          rnds, tok, lcur⟩
        model op ⟨.strv s, u, qa⟩ [] fid σ).queried = true ∧
      (allOperations ⟨⟨false, pfx, t1, t2, t3, t4⟩, hasRedis, hashFn⟩
        ⟨.ok none, .ok none, lg, acq, relErr, .ok v, setE, delE, polls,
          rnds, tok, lcur⟩
        model op ⟨.strv s, u, qa⟩ [] fid σ).result =
          .settled (.ok v)) := by
  refine ⟨?_, rfl, ?_, ?_⟩
  · intro v
    cases v <;> simp [isCacheHit]
  · intro sg lg acq relErr setE delE qR polls rnds tok lcur lockOpts
      hasRedis hashFn model op s u qa reg fid σ hop hw
    have hmem : op ∈ CACHE_OPERATIONS := by simpa using hop
    constructor <;>
      simp [allOperations, hmem, hw, safeGet, resolveStaticCacheConfig]
  · intro lg acq relErr setE delE v polls rnds tok lcur pfx t1 t2 t3 t4
      hasRedis hashFn model op s u qa fid σ hop hw
    have hmem : op ∈ CACHE_OPERATIONS := by simpa using hop
    constructor <;>
      simp [allOperations, hmem, hw, safeGet, resolveStaticCacheConfig,
        runSingleFlight, regLookup, executeQueryAndCache, executeQuery]

/-- C4 witness at a concrete read with a cached null and a concrete
miss. -/
theorem null_hit_distinguished_from_absence_witness :
    isCacheHit (some (Val.vint 3)) = true ∧
    (allOperations ⟨DEFAULT_LOCK_OPTIONS, true, fun _ => "h"⟩
      ⟨.ok (some Val.vnull), .ok none, .ok none, .ok true, false,
        .ok (Val.vint 1), false, false, fun _ => .ok none, fun _ => 0,
        "t", none⟩
      "user" "findFirst" ⟨.strv "k", UncacheOpt.undef, "qa"⟩ [] 0
      []).result = .settled (.ok Val.vnull) ∧
    (allOperations ⟨⟨false, "p", 1, 1, 1, 1⟩, true, fun _ => "h"⟩
      ⟨.ok none, .ok none, .ok none, .ok true, false, .ok (Val.vint 1),
        false, false, fun _ => .ok none, fun _ => 0, "t", none⟩
      "user" "findFirst" ⟨.strv "k", UncacheOpt.undef, "qa"⟩ [] 0
      []).queried = true := by
  refine ⟨?_, ?_, ?_⟩
  · exact (null_hit_distinguished_from_absence.1 (some (Val.vint 3))).mpr
      (by simp)
  · exact (null_hit_distinguished_from_absence.2.2.1
      (.ok none) (.ok none) (.ok true) false false false (.ok (Val.vint 1))
      (fun _ => .ok none) (fun _ => 0) "t" none DEFAULT_LOCK_OPTIONS true
      (fun _ => "h") "user" "findFirst" "k" UncacheOpt.undef "qa" [] 0 []
      (by decide) (by decide)).1
  · exact (null_hit_distinguished_from_absence.2.2.2
      (.ok none) (.ok true) false false false (Val.vint 1)
      (fun _ => .ok none) (fun _ => 0) "t" none "p" 1 1 1 1 true
      (fun _ => "h") "user" "findFirst" "k" UncacheOpt.undef "qa" 0 []
      (by decide) (by decide)).1

/-- C7. A call with a result-derived key directive executes the query
first with no prior cache read, applies invalidation, then writes the
result under the key produced by the deriving function applied to the
result; with an accepting store the written value is retrievable
under that derived key (round-trip). -/
theorem resultDerivedKey_round_trip
    (fg sg lg : GetR) (acq : Except Unit Bool) (relErr delE : Bool)
    (v : Val) (polls : ℕ → GetR) (rnds : ℕ → ℚ) (tok : String)
    (lcur : Option String) (lockOpts : LockOptions) (hasRedis : Bool)
    (hashFn : QArgs → String) (model op : String) (keyFn : Val → String)
    (ttl : Option ℚ) (u : UncacheOpt) (qa : QArgs) (reg : SFReg) (fid : ℕ)
    (σ : CacheState)
    (hop : CACHE_OPERATIONS.contains op = true) :
    (allOperations ⟨lockOpts, hasRedis, hashFn⟩
      ⟨fg, sg, lg, acq, relErr, .ok v, false, delE, polls, rnds, tok, lcur⟩
      model op ⟨.objFn keyFn ttl, u, qa⟩ reg fid σ).queried = true ∧
    (allOperations ⟨lockOpts, hasRedis, hashFn⟩
      ⟨fg, sg, lg, acq, relErr, .ok v, false, delE, polls, rnds, tok, lcur⟩
      model op ⟨.objFn keyFn ttl, u, qa⟩ reg fid σ).reads = [] ∧
    (allOperations ⟨lockOpts, hasRedis, hashFn⟩
      ⟨fg, sg, lg, acq, relErr, .ok v, false, delE, polls, rnds, tok, lcur⟩
      model op ⟨.objFn keyFn ttl, u, qa⟩ reg fid σ).writes =
        [(keyFn v, v, ttl)] ∧
    (allOperations ⟨lockOpts, hasRedis, hashFn⟩
      ⟨fg, sg, lg, acq, relErr, .ok v, false, delE, polls, rnds, tok, lcur⟩
      model op ⟨.objFn keyFn ttl, u, qa⟩ reg fid σ).uncacheDels =
        toUncache u v ∧
    (allOperations ⟨lockOpts, hasRedis, hashFn⟩
      ⟨fg, sg, lg, acq, relErr, .ok v, false, delE, polls, rnds, tok, lcur⟩
      model op ⟨.objFn keyFn ttl, u, qa⟩ reg fid σ).result =
        .settled (.ok v) ∧
    csGet (allOperations ⟨lockOpts, hasRedis, hashFn⟩
      ⟨fg, sg, lg, acq, relErr, .ok v, false, delE, polls, rnds, tok, lcur⟩
      model op ⟨.objFn keyFn ttl, u, qa⟩ reg fid σ).finalCache (keyFn v) =
        some v := by
  have hmem : op ∈ CACHE_OPERATIONS := by simpa using hop
  refine ⟨?_, ?_, ?_, ?_, ?_, ?_⟩ <;>
    simp [allOperations, hmem, executeQuery, safeSetEff, csGet_csSet_self]

/-- C7 witness at a concrete result-derived call. -/
theorem resultDerivedKey_round_trip_witness :
    (allOperations ⟨DEFAULT_LOCK_OPTIONS, true, fun _ => "h"⟩
      ⟨.ok none, .ok none, .ok none, .ok true, false, .ok (Val.vint 5),
        false, false, fun _ => .ok none, fun _ => 0, "t", none⟩
      "user" "update"
      ⟨.objFn (fun _ => "user-5") (some 2000), UncacheOpt.undef, "qa"⟩
      [] 0 []).writes = [("user-5", Val.vint 5, some 2000)] ∧
    csGet (allOperations ⟨DEFAULT_LOCK_OPTIONS, true, fun _ => "h"⟩
      ⟨.ok none, .ok none, .ok none, .ok true, false, .ok (Val.vint 5),
        false, false, fun _ => .ok none, fun _ => 0, "t", none⟩
      "user" "update"
      ⟨.objFn (fun _ => "user-5") (some 2000), UncacheOpt.undef, "qa"⟩
      [] 0 []).finalCache "user-5" = some (Val.vint 5) := by
  have h := resultDerivedKey_round_trip
    (.ok none) (.ok none) (.ok none) (.ok true) false false (Val.vint 5)
    (fun _ => .ok none) (fun _ => 0) "t" none DEFAULT_LOCK_OPTIONS true
    (fun _ => "h") "user" "update" (fun _ => "user-5") (some 2000)
    UncacheOpt.undef "qa" [] 0 [] (by decide)
  exact ⟨h.2.2.1, h.2.2.2.2.2⟩

/-- C2 counterexample: the interceptor classifies `delete` as a write
— `WRITE_OPERATIONS` contains it even though it is outside
create/createMany/updateMany/upsert/update — and an intercepted
`delete` with a static cache directive takes the write-through path
(query executed, no cache lookup at all) rather than the read path. -/
theorem write_classification_counterexample :
    isWrite "delete" = true ∧
    "delete" ∉ ["create", "createMany", "updateMany", "upsert", "update"] ∧
    (allOperations ⟨DEFAULT_LOCK_OPTIONS, true, fun _ => "h"⟩
      ⟨.ok none, .ok none, .ok none, .ok true, false, .ok (Val.vint 1),
        false, false, fun _ => .ok none, fun _ => 0, "t", none⟩
      "user" "delete" ⟨.strv "k", UncacheOpt.undef, "qa"⟩ [] 0 []).reads =
      [] ∧
    (allOperations ⟨DEFAULT_LOCK_OPTIONS, true, fun _ => "h"⟩
      ⟨.ok none, .ok none, .ok none, .ok true, false, .ok (Val.vint 1),
        false, false, fun _ => .ok none, fun _ => 0, "t", none⟩
      "user" "delete" ⟨.strv "k", UncacheOpt.undef, "qa"⟩ [] 0 []).queried =
      true := by
  refine ⟨by decide, by decide, rfl, rfl⟩

/-- C2 (amended). An intercepted operation is classified as a write
exactly when it belongs to `WRITE_OPERATIONS` — create, createMany,
updateMany, upsert, update and also delete.  Every such write with a
static cache directive executes the query unconditionally with no
prior cache lookup, applies invalidation, and then writes the cache
entry at the resolved key (write-through); every intercepted
operation outside the set takes the read path with a cache lookup
first. -/
theorem write_operations_write_through
    (fg sg lg : GetR) (acq : Except Unit Bool) (relErr setE delE : Bool)
    (v : Val) (polls : ℕ → GetR) (rnds : ℕ → ℚ) (tok : String)
    (lcur : Option String) (lockOpts : LockOptions) (hasRedis : Bool)
    (hashFn : QArgs → String) (model op : String) (c : CacheOpt)
    (u : UncacheOpt) (qa : QArgs) (reg : SFReg) (fid : ℕ) (σ : CacheState)
    (hop : CACHE_OPERATIONS.contains op = true)
    (hstatic : isStaticDirective c = true) :
    (isWrite op = true →
      (allOperations ⟨lockOpts, hasRedis, hashFn⟩
        ⟨fg, sg, lg, acq, relErr, .ok v, setE, delE, polls, rnds, tok, lcur⟩
        model op ⟨c, u, qa⟩ reg fid σ).queried = true ∧
      (allOperations ⟨lockOpts, hasRedis, hashFn⟩
        ⟨fg, sg, lg, acq, relErr, .ok v, setE, delE, polls, rnds, tok, lcur⟩
        model op ⟨c, u, qa⟩ reg fid σ).reads = [] ∧
      (allOperations ⟨lockOpts, hasRedis, hashFn⟩
        ⟨fg, sg, lg, acq, relErr, .ok v, setE, delE, polls, rnds, tok, lcur⟩
        model op ⟨c, u, qa⟩ reg fid σ).writes =
        [((resolveStaticCacheConfig hashFn model c qa).1, v,
          (resolveStaticCacheConfig hashFn model c qa).2)] ∧
      (allOperations ⟨lockOpts, hasRedis, hashFn⟩
        ⟨fg, sg, lg, acq, relErr, .ok v, setE, delE, polls, rnds, tok, lcur⟩
        model op ⟨c, u, qa⟩ reg fid σ).uncacheDels = toUncache u v ∧
      (allOperations ⟨lockOpts, hasRedis, hashFn⟩
        ⟨fg, sg, lg, acq, relErr, .ok v, setE, delE, polls, rnds, tok, lcur⟩
        model op ⟨c, u, qa⟩ reg fid σ).result = .settled (.ok v)) ∧
    (isWrite op = false → ∀ w : Val,
      (allOperations ⟨lockOpts, hasRedis, hashFn⟩
        ⟨.ok (some w), sg, lg, acq, relErr, .ok v, setE, delE, polls, rnds,
          tok, lcur⟩
        model op ⟨c, u, qa⟩ reg fid σ).result = .settled (.ok w) ∧
      (allOperations ⟨lockOpts, hasRedis, hashFn⟩
        ⟨.ok (some w), sg, lg, acq, relErr, .ok v, setE, delE, polls, rnds,
          tok, lcur⟩
        model op ⟨c, u, qa⟩ reg fid σ).queried = false ∧
      (allOperations ⟨lockOpts, hasRedis, hashFn⟩
        ⟨.ok (some w), sg, lg, acq, relErr, .ok v, setE, delE, polls, rnds,
          tok, lcur⟩
        model op ⟨c, u, qa⟩ reg fid σ).reads =
        [(resolveStaticCacheConfig hashFn model c qa).1]) := by
  have hmem : op ∈ CACHE_OPERATIONS := by simpa using hop
  constructor
  · intro hw
    rcases c with _ | b | n | s | ⟨k, nsp, t⟩ | _ | ⟨keyFn, t⟩
    · simp [isStaticDirective] at hstatic
    · cases b
      · simp [isStaticDirective] at hstatic
      · refine ⟨?_, ?_, ?_, ?_, ?_⟩ <;>
          simp [allOperations, hmem, hw, executeQueryAndCache, executeQuery,
            safeSetEff, resolveStaticCacheConfig]
    · refine ⟨?_, ?_, ?_, ?_, ?_⟩ <;>
        simp [allOperations, hmem, hw, executeQueryAndCache, executeQuery,
          safeSetEff, resolveStaticCacheConfig]
    · refine ⟨?_, ?_, ?_, ?_, ?_⟩ <;>
        simp [allOperations, hmem, hw, executeQueryAndCache, executeQuery,
          safeSetEff, resolveStaticCacheConfig]
    · refine ⟨?_, ?_, ?_, ?_, ?_⟩ <;>
        simp [allOperations, hmem, hw, executeQueryAndCache, executeQuery,
          safeSetEff, resolveStaticCacheConfig]
    · refine ⟨?_, ?_, ?_, ?_, ?_⟩ <;>
        simp [allOperations, hmem, hw, executeQueryAndCache, executeQuery,
          safeSetEff, resolveStaticCacheConfig]
    · simp [isStaticDirective] at hstatic
  · intro hw w
    rcases c with _ | b | n | s | ⟨k, nsp, t⟩ | _ | ⟨keyFn, t⟩
    · simp [isStaticDirective] at hstatic
    · cases b
      · simp [isStaticDirective] at hstatic
      · refine ⟨?_, ?_, ?_⟩ <;>
          simp [allOperations, hmem, hw, safeGet, resolveStaticCacheConfig]
    · refine ⟨?_, ?_, ?_⟩ <;>
        simp [allOperations, hmem, hw, safeGet, resolveStaticCacheConfig]
    · refine ⟨?_, ?_, ?_⟩ <;>
        simp [allOperations, hmem, hw, safeGet, resolveStaticCacheConfig]
    · refine ⟨?_, ?_, ?_⟩ <;>
        simp [allOperations, hmem, hw, safeGet, resolveStaticCacheConfig]
    · refine ⟨?_, ?_, ?_⟩ <;>
        simp [allOperations, hmem, hw, safeGet, resolveStaticCacheConfig]
    · simp [isStaticDirective] at hstatic

/-- C2 witness: a concrete `update` write-through and a concrete
`findFirst` read hit. -/
theorem write_operations_write_through_witness :
    (allOperations ⟨DEFAULT_LOCK_OPTIONS, true, fun _ => "h"⟩
      ⟨.ok none, .ok none, .ok none, .ok true, false, .ok (Val.vint 2),
        false, false, fun _ => .ok none, fun _ => 0, "t", none⟩
      "user" "update" ⟨.strv "k", UncacheOpt.undef, "qa"⟩ [] 0 []).writes =
      [("k", Val.vint 2, none)] ∧
    (allOperations ⟨DEFAULT_LOCK_OPTIONS, true, fun _ => "h"⟩
      ⟨.ok (some (Val.vint 7)), .ok none, .ok none, .ok true, false,
        .ok (Val.vint 2), false, false, fun _ => .ok none, fun _ => 0,
        "t", none⟩
      "user" "findFirst" ⟨.strv "k", UncacheOpt.undef, "qa"⟩ [] 0
      []).result = .settled (.ok (Val.vint 7)) := by
  constructor
  · exact ((write_operations_write_through
      (.ok none) (.ok none) (.ok none) (.ok true) false false false
      (Val.vint 2) (fun _ => .ok none) (fun _ => 0) "t" none
      DEFAULT_LOCK_OPTIONS true (fun _ => "h") "user" "update" (.strv "k")
      UncacheOpt.undef "qa" [] 0 [] (by decide) (by decide)).1
      (by decide)).2.2.1
  · exact (((write_operations_write_through
      (.ok none) (.ok none) (.ok none) (.ok true) false false false
      (Val.vint 2) (fun _ => .ok none) (fun _ => 0) "t" none
      DEFAULT_LOCK_OPTIONS true (fun _ => "h") "user" "findFirst" (.strv "k")
      UncacheOpt.undef "qa" [] 0 [] (by decide) (by decide)).2
      (by decide)) (Val.vint 7)).1

/-- C8. In the Holder state (lock acquired) every exit path — cached
value found on the post-acquisition recheck, query success, or query
failure — performs the lock release with this holder's lock key and
token; the release is the compare-and-delete script, which removes
the lock record exactly when its current value equals the token; and
a failing release never changes the call's result. -/
theorem holder_releases_lock_on_all_exits
    (relErr setE delE : Bool) (polls : ℕ → GetR) (rnds : ℕ → ℚ)
    (tok : String) (lcur : Option String) (pfx : String) (t1 t2 t3 t4 : ℕ)
    (hashFn : QArgs → String) (model op s : String) (u : UncacheOpt)
    (qa : QArgs) (reg : SFReg) (fid : ℕ) (σ : CacheState)
    (hop : CACHE_OPERATIONS.contains op = true)
    (hw : isWrite op = false) (hreg : regLookup reg s = none) :
    (∀ (w : Val) (qR : Except String Val),
      (allOperations ⟨⟨true, pfx, t1, t2, t3, t4⟩, true, hashFn⟩
        ⟨.ok none, .ok none, .ok (some w), .ok true, relErr, qR, setE, delE,
          polls, rnds, tok, lcur⟩
        model op ⟨.strv s, u, qa⟩ reg fid σ).result = .settled (.ok w) ∧
      (allOperations ⟨⟨true, pfx, t1, t2, t3, t4⟩, true, hashFn⟩
        ⟨.ok none, .ok none, .ok (some w), .ok true, relErr, qR, setE, delE,
          polls, rnds, tok, lcur⟩
        model op ⟨.strv s, u, qa⟩ reg fid σ).queried = false ∧
      (allOperations ⟨⟨true, pfx, t1, t2, t3, t4⟩, true, hashFn⟩
        ⟨.ok none, .ok none, .ok (some w), .ok true, relErr, qR, setE, delE,
          polls, rnds, tok, lcur⟩
        model op ⟨.strv s, u, qa⟩ reg fid σ).releases =
        [(pfx ++ ":" ++ s, tok)]) ∧
    (∀ v : Val,
      (allOperations ⟨⟨true, pfx, t1, t2, t3, t4⟩, true, hashFn⟩
        ⟨.ok none, .ok none, .ok none, .ok true, relErr, .ok v, setE, delE,
          polls, rnds, tok, lcur⟩
        model op ⟨.strv s, u, qa⟩ reg fid σ).result = .settled (.ok v) ∧
      (allOperations ⟨⟨true, pfx, t1, t2, t3, t4⟩, true, hashFn⟩
        ⟨.ok none, .ok none, .ok none, .ok true, relErr, .ok v, setE, delE,
          polls, rnds, tok, lcur⟩
        model op ⟨.strv s, u, qa⟩ reg fid σ).queried = true ∧
      (allOperations ⟨⟨true, pfx, t1, t2, t3, t4⟩, true, hashFn⟩
        ⟨.ok none, .ok none, .ok none, .ok true, relErr, .ok v, setE, delE,
          polls, rnds, tok, lcur⟩
        model op ⟨.strv s, u, qa⟩ reg fid σ).releases =
        [(pfx ++ ":" ++ s, tok)]) ∧
    (∀ e : String,
      (allOperations ⟨⟨true, pfx, t1, t2, t3, t4⟩, true, hashFn⟩
        ⟨.ok none, .ok none, .ok none, .ok true, relErr, .error e, setE,
          delE, polls, rnds, tok, lcur⟩
        model op ⟨.strv s, u, qa⟩ reg fid σ).result = .settled (.error e) ∧
      (allOperations ⟨⟨true, pfx, t1, t2, t3, t4⟩, true, hashFn⟩
        ⟨.ok none, .ok none, .ok none, .ok true, relErr, .error e, setE,
          delE, polls, rnds, tok, lcur⟩
        model op ⟨.strv s, u, qa⟩ reg fid σ).releases =
        [(pfx ++ ":" ++ s, tok)]) ∧
    (∀ (cur : Option String) (t : String),
      ((lockReleaseScript cur t).2 = true ↔ cur = some t) ∧
      (lockReleaseScript cur t).1 = (if cur = some t then none else cur)) ∧
    (∀ (lg : GetR) (qR : Except String Val),
      (allOperations ⟨⟨true, pfx, t1, t2, t3, t4⟩, true, hashFn⟩
        ⟨.ok none, .ok none, lg, .ok true, true, qR, setE, delE, polls,
          rnds, tok, lcur⟩
        model op ⟨.strv s, u, qa⟩ reg fid σ).result =
      (allOperations ⟨⟨true, pfx, t1, t2, t3, t4⟩, true, hashFn⟩
        ⟨.ok none, .ok none, lg, .ok true, false, qR, setE, delE, polls,
          rnds, tok, lcur⟩
        model op ⟨.strv s, u, qa⟩ reg fid σ).result) := by
  have hmem : op ∈ CACHE_OPERATIONS := by simpa using hop
  refine ⟨?_, ?_, ?_, ?_, ?_⟩
  · intro w qR
    refine ⟨?_, ?_, ?_⟩ <;>
      simp [allOperations, hmem, hw, safeGet, resolveStaticCacheConfig,
        runSingleFlight, hreg, tryAcquireLock]
  · intro v
    refine ⟨?_, ?_, ?_⟩ <;>
      simp [allOperations, hmem, hw, safeGet, resolveStaticCacheConfig,
        runSingleFlight, hreg, tryAcquireLock, executeQueryAndCache,
        executeQuery]
  · intro e
    constructor <;>
      simp [allOperations, hmem, hw, safeGet, resolveStaticCacheConfig,
        runSingleFlight, hreg, tryAcquireLock, executeQueryAndCache,
        executeQuery]
  · intro cur t
    by_cases hct : cur = some t <;> simp [lockReleaseScript, hct]
  · intro lg qR
    rcases lg with _ | ov
    · rcases qR with e | v <;>
        simp [allOperations, hmem, hw, safeGet, resolveStaticCacheConfig,
          runSingleFlight, hreg, tryAcquireLock, executeQueryAndCache,
          executeQuery]
    · rcases ov with _ | w
      · rcases qR with e | v <;>
          simp [allOperations, hmem, hw, safeGet, resolveStaticCacheConfig,
            runSingleFlight, hreg, tryAcquireLock, executeQueryAndCache,
            executeQuery]
      · simp [allOperations, hmem, hw, safeGet, resolveStaticCacheConfig,
          runSingleFlight, hreg, tryAcquireLock]

/-- C8 witness at a concrete holder run. -/
theorem holder_releases_lock_on_all_exits_witness :
    (allOperations ⟨⟨true, "lock", 5000, 2000, 40, 20⟩, true, fun _ => "h"⟩
      ⟨.ok none, .ok none, .ok none, .ok true, false, .ok (Val.vint 4),
        false, false, fun _ => .ok none, fun _ => 0, "tk", some "tk"⟩
      "user" "findFirst" ⟨.strv "k", UncacheOpt.undef, "qa"⟩ [] 0
      []).releases = [("lock:k", "tk")] ∧
    ((lockReleaseScript (some "tk") "tk").2 = true ↔
      (some "tk" : Option String) = some "tk") := by
  have h := holder_releases_lock_on_all_exits
    false false false (fun _ => .ok none) (fun _ => 0) "tk" (some "tk")
    "lock" 5000 2000 40 20 (fun _ => "h") "user" "findFirst" "k"
    UncacheOpt.undef "qa" [] 0 [] (by decide) (by decide) rfl
  exact ⟨(h.2.1 (Val.vint 4)).2.2, (h.2.2.2.1 (some "tk") "tk").1⟩

/-- C5. Cache-store failures are always recovered locally: a failing
`get` at any of the three read sites is observationally identical to
a miss, a failing invalidation delete or cache write leaves the
result of the query untouched, and a call whose store interactions
all fail still returns the query executor's result (a failed set or
delete is a no-op on the store). -/
theorem store_failures_never_propagate :
    (∀ (cfg : ExtConfig) (env : CallEnv) (model op : String)
      (args : CallArgs) (reg : SFReg) (fid : ℕ) (σ : CacheState),
      allOperations cfg { env with firstGet := .error () } model op args
        reg fid σ =
      allOperations cfg { env with firstGet := .ok none } model op args
        reg fid σ) ∧
    (∀ (cfg : ExtConfig) (env : CallEnv) (model op : String)
      (args : CallArgs) (reg : SFReg) (fid : ℕ) (σ : CacheState),
      allOperations cfg { env with secondGet := .error () } model op args
        reg fid σ =
      allOperations cfg { env with secondGet := .ok none } model op args
        reg fid σ) ∧
    (∀ (cfg : ExtConfig) (env : CallEnv) (model op : String)
      (args : CallArgs) (reg : SFReg) (fid : ℕ) (σ : CacheState),
      allOperations cfg { env with lockedGet := .error () } model op args
        reg fid σ =
      allOperations cfg { env with lockedGet := .ok none } model op args
        reg fid σ) ∧
    (∀ (env : CallEnv) (σ : CacheState) (u : UncacheOpt),
      (executeQuery { env with delErr := true } σ u).res =
      (executeQuery { env with delErr := false } σ u).res) ∧
    (∀ (env : CallEnv) (σ : CacheState) (u : UncacheOpt) (key : String)
      (ttl : Option ℚ),
      (executeQueryAndCache { env with setErr := true } σ u key ttl).res =
      (executeQueryAndCache { env with setErr := false } σ u key ttl).res) ∧
    (∀ (lg : GetR) (acq : Except Unit Bool) (relErr setE delE : Bool)
      (v : Val) (rnds : ℕ → ℚ) (tok : String) (lcur : Option String)
      (pfx : String) (t1 t2 t3 t4 : ℕ) (hasRedis : Bool)
      (hashFn : QArgs → String) (model op s : String) (u : UncacheOpt)
      (qa : QArgs) (fid : ℕ) (σ : CacheState),
      CACHE_OPERATIONS.contains op = true → isWrite op = false →
      (allOperations ⟨⟨false, pfx, t1, t2, t3, t4⟩, hasRedis, hashFn⟩
        ⟨.error (), .error (), lg, acq, relErr, .ok v, setE, delE,
          fun _ => .error (), rnds, tok, lcur⟩
        model op ⟨.strv s, u, qa⟩ [] fid σ).result = .settled (.ok v) ∧
      (allOperations ⟨⟨false, pfx, t1, t2, t3, t4⟩, hasRedis, hashFn⟩
        ⟨.error (), .error (), lg, acq, relErr, .ok v, setE, delE,
          fun _ => .error (), rnds, tok, lcur⟩
        model op ⟨.strv s, u, qa⟩ [] fid σ).queried = true) ∧
    (∀ (lg : GetR) (acq : Except Unit Bool) (relErr delE : Bool) (v : Val)
      (polls : ℕ → GetR) (rnds : ℕ → ℚ) (tok : String)
      (lcur : Option String) (pfx : String) (t1 t2 t3 t4 : ℕ)
      (hasRedis : Bool) (hashFn : QArgs → String) (model op s : String)
      (u : UncacheOpt) (qa : QArgs) (fid : ℕ) (σ : CacheState),
      CACHE_OPERATIONS.contains op = true → isWrite op = false →
      (allOperations ⟨⟨false, pfx, t1, t2, t3, t4⟩, hasRedis, hashFn⟩
        ⟨.ok none, .ok none, lg, acq, relErr, .ok v, true, delE, polls,
          rnds, tok, lcur⟩
        model op ⟨.strv s, u, qa⟩ [] fid σ).result = .settled (.ok v) ∧
      (allOperations ⟨⟨false, pfx, t1, t2, t3, t4⟩, hasRedis, hashFn⟩
        ⟨.ok none, .ok none, lg, acq, relErr, .ok v, true, delE, polls,
          rnds, tok, lcur⟩
        model op ⟨.strv s, u, qa⟩ [] fid σ).finalCache =
        (if delE then σ else csDelMany σ (toUncache u v))) ∧
    (∀ (fg sg lg : GetR) (acq : Except Unit Bool) (relErr setE : Bool)
      (v : Val) (polls : ℕ → GetR) (rnds : ℕ → ℚ) (tok : String)
      (lcur : Option String) (lockOpts : LockOptions) (hasRedis : Bool)
      (hashFn : QArgs → String) (model op : String) (u : UncacheOpt)
      (qa : QArgs) (reg : SFReg) (fid : ℕ) (σ : CacheState),
      CACHE_OPERATIONS.contains op = true →
      (allOperations ⟨lockOpts, hasRedis, hashFn⟩
        ⟨fg, sg, lg, acq, relErr, .ok v, setE, true, polls, rnds, tok,
          lcur⟩
        model op ⟨.undef, u, qa⟩ reg fid σ).result = .settled (.ok v) ∧
      (allOperations ⟨lockOpts, hasRedis, hashFn⟩
        ⟨fg, sg, lg, acq, relErr, .ok v, setE, true, polls, rnds, tok,
          lcur⟩
        model op ⟨.undef, u, qa⟩ reg fid σ).finalCache = σ) := by
  refine ⟨fun _ _ _ _ _ _ _ _ => rfl, fun _ _ _ _ _ _ _ _ => rfl,
    fun _ _ _ _ _ _ _ _ => rfl, ?_, ?_, ?_, ?_, ?_⟩
  · intro env σ u
    rcases h : env.queryR with e | v <;> simp [executeQuery, h]
  · intro env σ u key ttl
    rcases h : env.queryR with e | v <;>
      simp [executeQueryAndCache, executeQuery, h]
  · intro lg acq relErr setE delE v rnds tok lcur pfx t1 t2 t3 t4 hasRedis
      hashFn model op s u qa fid σ hop hw
    have hmem : op ∈ CACHE_OPERATIONS := by simpa using hop
    constructor <;>
      simp [allOperations, hmem, hw, safeGet, resolveStaticCacheConfig,
        runSingleFlight, regLookup, executeQueryAndCache, executeQuery]
  · intro lg acq relErr delE v polls rnds tok lcur pfx t1 t2 t3 t4 hasRedis
      hashFn model op s u qa fid σ hop hw
    have hmem : op ∈ CACHE_OPERATIONS := by simpa using hop
    constructor <;>
      simp [allOperations, hmem, hw, safeGet, resolveStaticCacheConfig,
        runSingleFlight, regLookup, executeQueryAndCache, executeQuery,
        safeSetEff]
  · intro fg sg lg acq relErr setE v polls rnds tok lcur lockOpts hasRedis
      hashFn model op u qa reg fid σ hop
    have hmem : op ∈ CACHE_OPERATIONS := by simpa using hop
    constructor <;> simp [allOperations, hmem, executeQuery]

/-- C5 witness: a concrete call whose store interactions all fail
still returns the query result. -/
theorem store_failures_never_propagate_witness :
    (allOperations ⟨⟨false, "p", 1, 1, 1, 1⟩, true, fun _ => "h"⟩
      ⟨.error (), .error (), .error (), .ok true, false, .ok (Val.vint 6),
        false, false, fun _ => .error (), fun _ => 0, "t", none⟩
      "user" "count" ⟨.strv "k", UncacheOpt.undef, "qa"⟩ [] 0 []).result =
      .settled (.ok (Val.vint 6)) ∧
    (executeQuery
      { firstGet := .ok none, secondGet := .ok none, lockedGet := .ok none,
        acquire := .ok true, releaseErr := false, queryR := .ok (Val.vint 6),
        setErr := false, delErr := true,
        polls := fun _ => .ok none, randoms := fun _ => 0, token := "t",
        lockCur := none } [] UncacheOpt.undef).res =
    (executeQuery
      { firstGet := .ok none, secondGet := .ok none, lockedGet := .ok none,
        acquire := .ok true, releaseErr := false, queryR := .ok (Val.vint 6),
        setErr := false, delErr := false,
        polls := fun _ => .ok none, randoms := fun _ => 0, token := "t",
        lockCur := none } [] UncacheOpt.undef).res := by
  constructor
  · exact (store_failures_never_propagate.2.2.2.2.2.1
      (.error ()) (.ok true) false false false (Val.vint 6) (fun _ => 0)
      "t" none "p" 1 1 1 1 true (fun _ => "h") "user" "count" "k"
      UncacheOpt.undef "qa" 0 [] (by decide) (by decide)).1
  · exact store_failures_never_propagate.2.2.2.1
      { firstGet := .ok none, secondGet := .ok none, lockedGet := .ok none,
        acquire := .ok true, releaseErr := false, queryR := .ok (Val.vint 6),
        setErr := false, delErr := false,
        polls := fun _ => .ok none, randoms := fun _ => 0, token := "t",
        lockCur := none } [] UncacheOpt.undef

/-- C6. When the query executor fails, the failure is returned to the
caller unchanged, no cache write is attempted, no invalidation runs,
and the in-flight registry entry created for the resolved key is
still removed — on the disabled-directive path, the result-derived
path, the write-through path, the lock-free read path, the holder
path (which still releases the lock), and the waiter path. -/
theorem query_failure_propagates_cleanly
    (relErr setE delE : Bool) (rnds : ℕ → ℚ) (tok : String)
    (lcur : Option String) (pfx : String) (t1 t2 t3 t4 : ℕ)
    (hashFn : QArgs → String) (model s : String) (u : UncacheOpt)
    (qa : QArgs) (reg : SFReg) (fid : ℕ) (σ : CacheState) (e : String) :
    (∀ (op : String) (fg sg lg : GetR) (acq : Except Unit Bool)
      (polls : ℕ → GetR),
      CACHE_OPERATIONS.contains op = true →
      (allOperations ⟨⟨true, pfx, t1, t2, t3, t4⟩, true, hashFn⟩
        ⟨fg, sg, lg, acq, relErr, .error e, setE, delE, polls, rnds, tok,
          lcur⟩
        model op ⟨.undef, u, qa⟩ reg fid σ).result = .settled (.error e) ∧
      (allOperations ⟨⟨true, pfx, t1, t2, t3, t4⟩, true, hashFn⟩
        ⟨fg, sg, lg, acq, relErr, .error e, setE, delE, polls, rnds, tok,
          lcur⟩
        model op ⟨.undef, u, qa⟩ reg fid σ).writes = [] ∧
      (allOperations ⟨⟨true, pfx, t1, t2, t3, t4⟩, true, hashFn⟩
        ⟨fg, sg, lg, acq, relErr, .error e, setE, delE, polls, rnds, tok,
          lcur⟩
        model op ⟨.undef, u, qa⟩ reg fid σ).uncacheDels = []) ∧
    (∀ (op : String) (fg sg lg : GetR) (acq : Except Unit Bool)
      (polls : ℕ → GetR) (keyFn : Val → String) (ttl : Option ℚ),
      CACHE_OPERATIONS.contains op = true →
      (allOperations ⟨⟨true, pfx, t1, t2, t3, t4⟩, true, hashFn⟩
        ⟨fg, sg, lg, acq, relErr, .error e, setE, delE, polls, rnds, tok,
          lcur⟩
        model op ⟨.objFn keyFn ttl, u, qa⟩ reg fid σ).result =
        .settled (.error e) ∧
      (allOperations ⟨⟨true, pfx, t1, t2, t3, t4⟩, true, hashFn⟩
        ⟨fg, sg, lg, acq, relErr, .error e, setE, delE, polls, rnds, tok,
          lcur⟩
        model op ⟨.objFn keyFn ttl, u, qa⟩ reg fid σ).writes = []) ∧
    (∀ (op : String) (fg sg lg : GetR) (acq : Except Unit Bool)
      (polls : ℕ → GetR),
      CACHE_OPERATIONS.contains op = true → isWrite op = true →
      (allOperations ⟨⟨true, pfx, t1, t2, t3, t4⟩, true, hashFn⟩
        ⟨fg, sg, lg, acq, relErr, .error e, setE, delE, polls, rnds, tok,
          lcur⟩
        model op ⟨.strv s, u, qa⟩ reg fid σ).result = .settled (.error e) ∧
      (allOperations ⟨⟨true, pfx, t1, t2, t3, t4⟩, true, hashFn⟩
        ⟨fg, sg, lg, acq, relErr, .error e, setE, delE, polls, rnds, tok,
          lcur⟩
        model op ⟨.strv s, u, qa⟩ reg fid σ).writes = []) ∧
    (∀ (op : String) (lg : GetR) (acq : Except Unit Bool) (polls : ℕ → GetR)
      (en hr : Bool),
      CACHE_OPERATIONS.contains op = true → isWrite op = false →
      regLookup reg s = none → (en = false ∨ hr = false) →
      (allOperations ⟨⟨en, pfx, t1, t2, t3, t4⟩, hr, hashFn⟩
        ⟨.ok none, .ok none, lg, acq, relErr, .error e, setE, delE, polls,
          rnds, tok, lcur⟩
        model op ⟨.strv s, u, qa⟩ reg fid σ).result = .settled (.error e) ∧
      (allOperations ⟨⟨en, pfx, t1, t2, t3, t4⟩, hr, hashFn⟩
        ⟨.ok none, .ok none, lg, acq, relErr, .error e, setE, delE, polls,
          rnds, tok, lcur⟩
        model op ⟨.strv s, u, qa⟩ reg fid σ).writes = [] ∧
      (allOperations ⟨⟨en, pfx, t1, t2, t3, t4⟩, hr, hashFn⟩
        ⟨.ok none, .ok none, lg, acq, relErr, .error e, setE, delE, polls,
          rnds, tok, lcur⟩
        model op ⟨.strv s, u, qa⟩ reg fid σ).sfKey = some s ∧
      regLookup (allOperations ⟨⟨en, pfx, t1, t2, t3, t4⟩, hr, hashFn⟩
        ⟨.ok none, .ok none, lg, acq, relErr, .error e, setE, delE, polls,
          rnds, tok, lcur⟩
        model op ⟨.strv s, u, qa⟩ reg fid σ).regAfter s = none) ∧
    (∀ (op : String) (polls : ℕ → GetR),
      CACHE_OPERATIONS.contains op = true → isWrite op = false →
      regLookup reg s = none →
      (allOperations ⟨⟨true, pfx, t1, t2, t3, t4⟩, true, hashFn⟩
        ⟨.ok none, .ok none, .ok none, .ok true, relErr, .error e, setE,
          delE, polls, rnds, tok, lcur⟩
        model op ⟨.strv s, u, qa⟩ reg fid σ).result = .settled (.error e) ∧
      (allOperations ⟨⟨true, pfx, t1, t2, t3, t4⟩, true, hashFn⟩
        ⟨.ok none, .ok none, .ok none, .ok true, relErr, .error e, setE,
          delE, polls, rnds, tok, lcur⟩
        model op ⟨.strv s, u, qa⟩ reg fid σ).writes = [] ∧
      (allOperations ⟨⟨true, pfx, t1, t2, t3, t4⟩, true, hashFn⟩
        ⟨.ok none, .ok none, .ok none, .ok true, relErr, .error e, setE,
          delE, polls, rnds, tok, lcur⟩
        model op ⟨.strv s, u, qa⟩ reg fid σ).releases =
        [(pfx ++ ":" ++ s, tok)] ∧
      regLookup (allOperations ⟨⟨true, pfx, t1, t2, t3, t4⟩, true, hashFn⟩
        ⟨.ok none, .ok none, .ok none, .ok true, relErr, .error e, setE,
          delE, polls, rnds, tok, lcur⟩
        model op ⟨.strv s, u, qa⟩ reg fid σ).regAfter s = none) ∧
    (∀ (op : String) (polls : ℕ → GetR),
      CACHE_OPERATIONS.contains op = true → isWrite op = false →
      regLookup reg s = none → (∀ j, safeGet (polls j) = none) →
      (allOperations ⟨⟨true, pfx, t1, t2, t3, t4⟩, true, hashFn⟩
        ⟨.ok none, .ok none, .ok none, .ok false, relErr, .error e, setE,
          delE, polls, rnds, tok, lcur⟩
        model op ⟨.strv s, u, qa⟩ reg fid σ).result = .settled (.error e) ∧
      (allOperations ⟨⟨true, pfx, t1, t2, t3, t4⟩, true, hashFn⟩
        ⟨.ok none, .ok none, .ok none, .ok false, relErr, .error e, setE,
          delE, polls, rnds, tok, lcur⟩
        model op ⟨.strv s, u, qa⟩ reg fid σ).writes = [] ∧
      regLookup (allOperations ⟨⟨true, pfx, t1, t2, t3, t4⟩, true, hashFn⟩
        ⟨.ok none, .ok none, .ok none, .ok false, relErr, .error e, setE,
          delE, polls, rnds, tok, lcur⟩
        model op ⟨.strv s, u, qa⟩ reg fid σ).regAfter s = none) := by
  refine ⟨?_, ?_, ?_, ?_, ?_, ?_⟩
  · intro op fg sg lg acq polls hop
    have hmem : op ∈ CACHE_OPERATIONS := by simpa using hop
    refine ⟨?_, ?_, ?_⟩ <;> simp [allOperations, hmem, executeQuery]
  · intro op fg sg lg acq polls keyFn ttl hop
    have hmem : op ∈ CACHE_OPERATIONS := by simpa using hop
    constructor <;> simp [allOperations, hmem, executeQuery]
  · intro op fg sg lg acq polls hop hw
    have hmem : op ∈ CACHE_OPERATIONS := by simpa using hop
    constructor <;>
      simp [allOperations, hmem, hw, executeQueryAndCache, executeQuery,
        resolveStaticCacheConfig]
  · intro op lg acq polls en hr hop hw hreg hdis
    have hmem : op ∈ CACHE_OPERATIONS := by simpa using hop
    rcases hdis with rfl | rfl <;>
      refine ⟨?_, ?_, ?_, ?_⟩ <;>
        simp [allOperations, hmem, hw, safeGet, resolveStaticCacheConfig,
          runSingleFlight, hreg, executeQueryAndCache, executeQuery,
          regLookup_regErase_self]
  · intro op polls hop hw hreg
    have hmem : op ∈ CACHE_OPERATIONS := by simpa using hop
    refine ⟨?_, ?_, ?_, ?_⟩ <;>
      simp [allOperations, hmem, hw, safeGet, resolveStaticCacheConfig,
        runSingleFlight, hreg, tryAcquireLock, executeQueryAndCache,
        executeQuery, regLookup_regErase_self]
  · intro op polls hop hw hreg hp
    have hmem : op ∈ CACHE_OPERATIONS := by simpa using hop
    have hm := waitForCacheFill_all_miss ⟨true, pfx, t1, t2, t3, t4⟩
      rnds polls hp t2 0
    refine ⟨?_, ?_, ?_⟩ <;>
      simp [allOperations, hmem, hw, safeGet, resolveStaticCacheConfig,
        runSingleFlight, hreg, tryAcquireLock, hm, executeQueryAndCache,
        executeQuery, regLookup_regErase_self]

/-- C6 witness: a concrete failing query on the lock-free read path. -/
theorem query_failure_propagates_cleanly_witness :
    (allOperations ⟨⟨false, "p", 1, 1, 1, 1⟩, false, fun _ => "h"⟩
      ⟨.ok none, .ok none, .ok none, .ok true, false, .error "boom",
        false, false, fun _ => .ok none, fun _ => 0, "t", none⟩
      "user" "findFirst" ⟨.strv "k", UncacheOpt.undef, "qa"⟩ [] 0
      []).result = .settled (.error "boom") ∧
    regLookup (allOperations ⟨⟨false, "p", 1, 1, 1, 1⟩, false, fun _ => "h"⟩
      ⟨.ok none, .ok none, .ok none, .ok true, false, .error "boom",
        false, false, fun _ => .ok none, fun _ => 0, "t", none⟩
      "user" "findFirst" ⟨.strv "k", UncacheOpt.undef, "qa"⟩ [] 0
      []).regAfter "k" = none := by
  have h := (query_failure_propagates_cleanly false false false
    (fun _ => 0) "t" none "p" 1 1 1 1 (fun _ => "h") "user" "k"
    UncacheOpt.undef "qa" [] 0 [] "boom").2.2.2.1
    "findFirst" (.ok none) (.ok true) (fun _ => .ok none) false false
    (by decide) (by decide) rfl (Or.inl rfl)
  exact ⟨h.1, h.2.2.2⟩

/-- C9. The waiter path: the jitter drawn from a random `r` in
`[0, 1)` always lies in `[0, retryJitter]`; the polling loop performs
at most `remaining` polls (each sleep consumes at least one time
unit, so the loop always reaches the deadline); and a waiter whose
deadline expires without a cache hit falls through to executing the
query directly and writing the cache entry at the resolved key. -/
theorem waiter_bounded_and_falls_through :
    (∀ (r : ℚ) (J : ℕ), 0 ≤ r → r < 1 → jitterOf r J ≤ J) ∧
    (∀ (options : LockOptions) (randoms : ℕ → ℚ) (polls : ℕ → GetR)
      (remaining i : ℕ),
      (waitForCacheFill options randoms polls remaining i).2 ≤
        i + remaining) ∧
    (∀ (relErr setE delE : Bool) (v : Val) (polls : ℕ → GetR)
      (rnds : ℕ → ℚ) (tok : String) (lcur : Option String) (pfx : String)
      (t1 t2 t3 t4 : ℕ) (hashFn : QArgs → String) (model op s : String)
      (u : UncacheOpt) (qa : QArgs) (reg : SFReg) (fid : ℕ)
      (σ : CacheState),
      CACHE_OPERATIONS.contains op = true → isWrite op = false →
      regLookup reg s = none → (∀ j, safeGet (polls j) = none) →
      (allOperations ⟨⟨true, pfx, t1, t2, t3, t4⟩, true, hashFn⟩
        ⟨.ok none, .ok none, .ok none, .ok false, relErr, .ok v, setE,
          delE, polls, rnds, tok, lcur⟩
        model op ⟨.strv s, u, qa⟩ reg fid σ).queried = true ∧
      (allOperations ⟨⟨true, pfx, t1, t2, t3, t4⟩, true, hashFn⟩
        ⟨.ok none, .ok none, .ok none, .ok false, relErr, .ok v, setE,
          delE, polls, rnds, tok, lcur⟩
        model op ⟨.strv s, u, qa⟩ reg fid σ).writes = [(s, v, none)] ∧
      (allOperations ⟨⟨true, pfx, t1, t2, t3, t4⟩, true, hashFn⟩
        ⟨.ok none, .ok none, .ok none, .ok false, relErr, .ok v, setE,
          delE, polls, rnds, tok, lcur⟩
        model op ⟨.strv s, u, qa⟩ reg fid σ).result = .settled (.ok v)) := by
  refine ⟨jitterOf_le, waitForCacheFill_polls_le, ?_⟩
  intro relErr setE delE v polls rnds tok lcur pfx t1 t2 t3 t4 hashFn
    model op s u qa reg fid σ hop hw hreg hp
  have hmem : op ∈ CACHE_OPERATIONS := by simpa using hop
  have hm := waitForCacheFill_all_miss ⟨true, pfx, t1, t2, t3, t4⟩
    rnds polls hp t2 0
  refine ⟨?_, ?_, ?_⟩ <;>
    simp [allOperations, hmem, hw, safeGet, resolveStaticCacheConfig,
      runSingleFlight, hreg, tryAcquireLock, hm, executeQueryAndCache,
      executeQuery]

/-- C9 witness at a concrete waiter run with all polls missing. -/
theorem waiter_bounded_and_falls_through_witness :
    jitterOf (1 / 2) 20 ≤ 20 ∧
    (waitForCacheFill DEFAULT_LOCK_OPTIONS (fun _ => 0)
      (fun _ => .error ()) 2000 0).2 ≤ 0 + 2000 ∧
    (allOperations ⟨⟨true, "p", 5000, 2000, 40, 20⟩, true, fun _ => "h"⟩
      ⟨.ok none, .ok none, .ok none, .ok false, false, .ok (Val.vint 8),
        false, false, fun _ => .error (), fun _ => 0, "t", none⟩
      "user" "findFirst" ⟨.strv "k", UncacheOpt.undef, "qa"⟩ [] 0
      []).writes = [("k", Val.vint 8, none)] := by
  refine ⟨?_, ?_, ?_⟩
  · exact waiter_bounded_and_falls_through.1 (1 / 2) 20 (by norm_num)
      (by norm_num)
  · exact waiter_bounded_and_falls_through.2.1 DEFAULT_LOCK_OPTIONS
      (fun _ => 0) (fun _ => .error ()) 2000 0
  · exact (waiter_bounded_and_falls_through.2.2 false false false
      (Val.vint 8) (fun _ => .error ()) (fun _ => 0) "t" none "p"
      5000 2000 40 20 (fun _ => "h") "user" "findFirst" "k"
      UncacheOpt.undef "qa" [] 0 [] (by decide) (by decide) rfl
      (fun j => rfl)).2.1

end PrismaCache
